import Mathlib

/-!
Verification of the disks-poweroff daemon (two Python source versions: the
older `disks-poweroff.py` and the newer `src/disks-poweroff.py`).

The embedding is shallow: each method of the `DisksPowerOff` class becomes a
pure Lean function.  Mutable dictionaries (`self.diskstats`,
`self.disk_states` / `self.disk_statuses`) become finite maps represented as
functions `String → Option _`; `time.time()` readings, `smartctl` and
`hdparm` return codes are passed in explicitly (one reading per phase, one
return-code oracle per external tool); Python exceptions (KeyError on a
missing dictionary entry, IndexError on a short diskstats line) become
`Except Unit`; syslog calls that the claims mention become `LogEvent`
values.  Timestamps are modelled as integers: the program only ever compares
them by subtraction against the timeout, never relies on fractional parts.
-/

namespace DP

/-- Device identifier: a bare device name such as "sda". -/
abbrev DeviceId := String

/-- The three state labels ACTIVE / IDLE / POWEROFF of the source. -/
inductive StateLabel where
  | ACTIVE
  | IDLE
  | POWEROFF
deriving DecidableEq

export StateLabel (ACTIVE IDLE POWEROFF)

/-- `DiskState` of the newer source: a label plus the timestamp of entry
into the current state.  (The Python `__eq__` of this class compares labels
only; the program logic never calls it, and the structural equality used in
the theorems below is full record equality.) -/
structure DiskState where
  state : StateLabel
  timestamp : Int
deriving DecidableEq

/-- `DiskSectors` of the newer source: the opaque token pair read from
/proc/diskstats.  Python `__eq__` compares both fields, which is exactly the
derived structural equality. -/
structure DiskSectors where
  sectors_read : String
  sectors_written : String
deriving DecidableEq

/-- External commands the Power Controller issues, with their device. -/
inductive Cmd where
  | query (d : DeviceId)     -- smartctl -n standby /dev/<d>
  | spindown (d : DeviceId)  -- hdparm -yY /dev/<d>
deriving DecidableEq

/-- The syslog messages the claims depend on. -/
inductive LogEvent where
  | warnMissingDevices                 -- missing devices key in the config
  | warnInvalidTimeout                 -- int() failed on the timeout value
  | warnInvalidPollingInterval         -- int() failed on the polling value
  | errHdparmFailed (d : DeviceId)     -- hdparm returned non-zero
  | dbgStatePoweroff (d : DeviceId)    -- state changed to POWEROFF
deriving DecidableEq

/-- Snapshot store: `self.diskstats` or `self.diskstats_prev`. -/
abbrev SnapMap := DeviceId → Option DiskSectors

/-- State store: `self.disk_states` (new) or `self.disk_statuses` (old). -/
abbrev StateMap := DeviceId → Option DiskState

/-- Dictionary insertion `m[d] = v`. -/
def setMap {α : Type} (m : DeviceId → Option α) (d : DeviceId) (v : α) :
    DeviceId → Option α :=
  fun x => if x = d then some v else m x

theorem setMap_same {α : Type} (m : DeviceId → Option α) (d : DeviceId) (v : α) :
    setMap m d v d = some v := by
  simp [setMap]

theorem setMap_other {α : Type} (m : DeviceId → Option α) (d x : DeviceId) (v : α)
    (h : x ≠ d) : setMap m d v x = m x := by
  simp [setMap, h]

/-! ### The counter source adapter (`parse_diskstats_line`, both versions) -/

/-- The whitespace set of Python `str.strip()` (ASCII part). -/
def pyWs (c : Char) : Bool :=
  c = ' ' || c = '\t' || c = '\n' || c = '\r' || c = '\x0b' || c = '\x0c'

/-- Python `str.strip()` on a character list. -/
def pyStripList (l : List Char) : List Char :=
  ((l.dropWhile pyWs).reverse.dropWhile pyWs).reverse

/-- Python `str.strip()`. -/
def pyStrip (s : String) : String :=
  ⟨pyStripList s.data⟩

/-- Split on a single-character separator, keeping empty pieces, exactly
like Python `str.split(sep)` for a one-character sep.  (Defined by
structural recursion so concrete instances evaluate inside the kernel.) -/
def splitOnCharAux (sep : Char) : List Char → List Char → List (List Char)
  | [], acc => [acc.reverse]
  | c :: rest, acc =>
    if c = sep then acc.reverse :: splitOnCharAux sep rest []
    else splitOnCharAux sep rest (c :: acc)

/-- String wrapper of `splitOnCharAux`. -/
def splitOnChar (sep : Char) (s : String) : List String :=
  (splitOnCharAux sep s.data []).map (fun l => ⟨l⟩)

/-- Python `re.sub(' +', ' ', line)`: collapse runs of space characters
(only spaces, exactly as the regex says) to a single space. -/
def collapseSpaces (s : String) : String :=
  ⟨(s.data.foldl
      (fun acc c =>
        if c = ' ' && acc.head? = some ' ' then acc else c :: acc) []).reverse⟩

/-- The whitespace-collapsed, stripped, space-split field list of one
diskstats line, exactly as both sources compute it before indexing. -/
def diskstatsFields (line : String) : List String :=
  splitOnChar ' ' (pyStrip (collapseSpaces line))

/-- `parse_diskstats_line` (identical in both versions): fields 3, 6 and 10
(0-based indices 2, 5, 9).  Python raises IndexError when the line has too
few fields; that is the `Except.error ()` case. -/
def parse_diskstats_line (line : String) :
    Except Unit (DeviceId × String × String) :=
  match (diskstatsFields line).get? 2, (diskstatsFields line).get? 5,
      (diskstatsFields line).get? 9 with
  | some d, some r, some w => Except.ok (d, r, w)
  | _, _, _ => Except.error ()

/-! ### Startup (`DisksPowerOff.__init__`, newer version) -/

/-- `normalize_name` of the newer source (the older source has the identical
local function `normalize_disk`): strip whitespace, and keep only the last
`/`-separated component when the name is path-qualified. -/
def normalize_name (disk : String) : String :=
  let d := pyStrip disk
  if d.data.contains '/' then (splitOnChar '/' d).getLastD "" else d

/-- The device enumeration filter `re.match("[sh]d[a-z]\\Z", dev)`: exactly
three characters, `s` or `h`, then `d`, then a lowercase letter. -/
def devicePattern (s : String) : Bool :=
  match s.data with
  | [c1, c2, c3] =>
    (c1 = 's' || c1 = 'h') && c2 = 'd' && ('a' ≤ c3 && c3 ≤ 'z')
  | _ => false

/-- Digit run of a Python integer literal after the first digit: underscores
allowed singly and only between digits. -/
def digitsRest : List Char → Bool
  | [] => true
  | '_' :: c :: rest => c.isDigit && digitsRest rest
  | '_' :: [] => false
  | c :: rest => c.isDigit && digitsRest rest

/-- Non-empty digit run, first character a digit. -/
def digitsOk : List Char → Bool
  | [] => false
  | c :: rest => c.isDigit && digitsRest rest

/-- Numeric value of a digit run, skipping underscores. -/
def digitsVal (l : List Char) : Nat :=
  l.foldl (fun acc c => if c = '_' then acc else acc * 10 + (c.toNat - '0'.toNat)) 0

/-- Model of the Python builtin `int(str)` on ASCII input: strip whitespace,
optional sign, then a non-empty digit run (with Python underscore rules).
`none` is the ValueError case. -/
def pyInt (s : String) : Option Int :=
  let l := pyStripList s.data
  match l with
  | '+' :: rest => if digitsOk rest then some (digitsVal rest : Int) else none
  | '-' :: rest => if digitsOk rest then some (-(digitsVal rest : Int)) else none
  | _ => if digitsOk l then some (digitsVal l : Int) else none

/-- The configuration the constructor resolves. -/
structure DaemonConfig where
  disks : List DeviceId
  timeout : Int
  polling_interval : Int
deriving DecidableEq

/-- `DisksPowerOff.__init__` of the newer source, given the `/dev` listing
(`os.listdir`) and the `disks-poweroff` config section as a key lookup.
Returns the resolved configuration and the warnings emitted.  The
constructor never fails once the section exists: invalid numeric values fall
back to the defaults 1800 and 10 with a warning. -/
def resolveDevices (devListing : List String) (cfg : String → Option String) :
    List String × List LogEvent :=
  let possible := devListing.filter devicePattern
  let p1 : List String × List LogEvent :=
    match cfg "devices" with
    | some s => (splitOnChar ',' (pyStrip s), [])
    | none => (possible, [LogEvent.warnMissingDevices])
  ((p1.1.map normalize_name).filter (fun x => decide (x ∈ possible)), p1.2)

/-- The timeout block of the constructor: `config[...].get("timeout",
str(1800))` then `int(...)` with the ValueError fallback. -/
def resolveTimeout (cfg : String → Option String) : Int × List LogEvent :=
  match pyInt ((cfg "timeout").getD "1800") with
  | some n => (n, [])
  | none => (1800, [LogEvent.warnInvalidTimeout])

/-- The polling-interval block of the constructor (default 10). -/
def resolvePolling (cfg : String → Option String) : Int × List LogEvent :=
  match pyInt ((cfg "polling_interval").getD "10") with
  | some n => (n, [])
  | none => (10, [LogEvent.warnInvalidPollingInterval])

/-- The whole constructor: the three blocks in program order. -/
def initDaemon (devListing : List String) (cfg : String → Option String) :
    DaemonConfig × List LogEvent :=
  (⟨(resolveDevices devListing cfg).1, (resolveTimeout cfg).1,
    (resolvePolling cfg).1⟩,
   (resolveDevices devListing cfg).2 ++ (resolveTimeout cfg).2
     ++ (resolvePolling cfg).2)

/-! ### `DisksPowerOff.poll` (newer version) -/

/-- The loop body of `poll` over the diskstats lines: parse every line (an
IndexError aborts everything), record only tracked devices. -/
def pollLines (disks : List DeviceId) :
    List String → SnapMap → Except Unit SnapMap
  | [], m => Except.ok m
  | line :: rest, m =>
    match parse_diskstats_line line with
    | Except.error e => Except.error e
    | Except.ok (d, r, w) =>
      pollLines disks rest (if d ∈ disks then setMap m d ⟨r, w⟩ else m)

/-- `poll`: `self.diskstats = {}` then fill from the lines. (The shift of
the old snapshot into `self.diskstats_prev` is explicit state passing at the
call sites below.) -/
def poll (disks : List DeviceId) (lines : List String) : Except Unit SnapMap :=
  pollLines disks lines (fun _ => none)

/-! ### `DisksPowerOff.compare` (newer version) -/

/-- The classification condition of the newer `compare` (lines 188-192):
`disk in self.diskstats and disk in self.diskstats_prev and
(self.diskstats_prev[disk] == self.diskstats[disk])`.  `true` is the
"unchanged" classification, `false` is "changed". -/
def unchangedClass (prev cur : SnapMap) (d : DeviceId) : Bool :=
  match cur d, prev d with
  | some c, some p => decide (p = c)
  | _, _ => false

/-- One device of the newer `compare`.  In the unchanged branch the source
reads `self.disk_states[disk]` with no guard: a missing entry is a Python
KeyError, modelled as `Except.error ()`. -/
def compareDiskNew (now : Int) (prev cur : SnapMap) (states : StateMap)
    (d : DeviceId) : Except Unit StateMap :=
  if unchangedClass prev cur d then
    match states d with
    | none => Except.error ()
    | some st =>
      if st.state ≠ IDLE ∧ st.state ≠ POWEROFF then
        Except.ok (setMap states d ⟨IDLE, now⟩)
      else Except.ok states
  else
    match states d with
    | none => Except.ok (setMap states d ⟨ACTIVE, now⟩)
    | some st =>
      if st.state ≠ ACTIVE then Except.ok (setMap states d ⟨ACTIVE, now⟩)
      else Except.ok states

/-- The newer `compare` loop over `self.disks`. -/
def compareNew (now : Int) (prev cur : SnapMap) :
    List DeviceId → StateMap → Except Unit StateMap
  | [], states => Except.ok states
  | d :: rest, states =>
    match compareDiskNew now prev cur states d with
    | Except.error e => Except.error e
    | Except.ok st1 => compareNew now prev cur rest st1

/-! ### `DisksPowerOff.poweroff` (newer version) -/

/-- The eligibility condition of `poweroff` for a recorded state. -/
def eligible (timeout now : Int) (st : DiskState) : Prop :=
  (st.state = IDLE ∨ st.state = POWEROFF) ∧ timeout ≤ now - st.timestamp

instance (timeout now : Int) (st : DiskState) :
    Decidable (eligible timeout now st) := by
  unfold eligible
  infer_instance

/-- One device of the newer `poweroff`, given the return-code oracles of
`smartctl -n standby` (`sR`) and `hdparm -yY` (`hR`).  Eligibility:
a recorded state IDLE or POWEROFF whose age reached the timeout.  The
sentinel return code 2 of smartctl means "already in standby" and skips
hdparm.  The final assignment `self.disk_states[disk].state = POWEROFF`
keeps the timestamp. -/
def poweroffDiskNew (timeout now : Int) (sR hR : DeviceId → Int)
    (states : StateMap) (d : DeviceId) :
    StateMap × List Cmd × List LogEvent :=
  match states d with
  | none => (states, [], [])
  | some st =>
    if eligible timeout now st then
      (setMap states d ⟨POWEROFF, st.timestamp⟩,
       Cmd.query d :: (if sR d ≠ 2 then [Cmd.spindown d] else []),
       (if sR d ≠ 2 then
          (if hR d ≠ 0 then [LogEvent.errHdparmFailed d] else [])
        else [])
         ++ (if st.state ≠ POWEROFF then [LogEvent.dbgStatePoweroff d] else []))
    else (states, [], [])

/-- The newer `poweroff` loop over `self.disks`, collecting the issued
commands and the log lines in program order. -/
def poweroffNew (timeout now : Int) (sR hR : DeviceId → Int) :
    List DeviceId → StateMap → StateMap × List Cmd × List LogEvent
  | [], states => (states, [], [])
  | d :: rest, states =>
    let r1 := poweroffDiskNew timeout now sR hR states d
    let r2 := poweroffNew timeout now sR hR rest r1.1
    (r2.1, r1.2.1 ++ r2.2.1, r1.2.2 ++ r2.2.2)

/-! ### The older version (`compare` / `poweroff` on `self.disk_statuses`) -/

/-- The classification condition of the older `compare` (lines 118-121):
`self.diskstats_prev.get(disk, []) == self.diskstats.get(disk, []) and
self.diskstats.get(disk, []) != []`.  Stored values are the two-element
lists `[sectors_read, sectors_written]`, never `[]`, so the default `[]`
compares equal only to the other default. -/
def oldUnchangedClass (prev cur : SnapMap) (d : DeviceId) : Bool :=
  match cur d, prev d with
  | some c, some p => decide (p = c)
  | some _, none => false   -- prev default [] differs from the pair
  | none, _ => false        -- cur default [] fails the second conjunct

/-- One device of the older `compare`.  `self.disk_statuses.get(disk,
[None, None])[0]` is `none` when the device has no record, and `None`
differs from every label, so the unchanged branch is total; the changed
branch always rewrites the record (refreshing the timestamp even when the
state is already ACTIVE). -/
def compareDiskOld (now : Int) (prev cur : SnapMap) (sts : StateMap)
    (d : DeviceId) : StateMap :=
  if oldUnchangedClass prev cur d then
    if (sts d).map DiskState.state ≠ some IDLE
        ∧ (sts d).map DiskState.state ≠ some POWEROFF then
      setMap sts d ⟨IDLE, now⟩
    else sts
  else setMap sts d ⟨ACTIVE, now⟩

/-- The older `compare` loop. -/
def compareOld (now : Int) (prev cur : SnapMap) :
    List DeviceId → StateMap → StateMap
  | [], sts => sts
  | d :: rest, sts => compareOld now prev cur rest (compareDiskOld now prev cur sts d)

/-- One device of the older `poweroff`.  `self.disk_statuses.get(disk,
["ACTIVE", time.time()])` makes an absent device ineligible; the eligible
branch issues the same commands as the newer version and rewrites only the
label (`self.disk_statuses[disk][0] = "POWEROFF"`). -/
def poweroffDiskOld (timeout now : Int) (sR _hR : DeviceId → Int)
    (sts : StateMap) (d : DeviceId) : StateMap × List Cmd :=
  match sts d with
  | none => (sts, [])
  | some st =>
    if eligible timeout now st then
      (setMap sts d ⟨POWEROFF, st.timestamp⟩,
       Cmd.query d :: (if sR d ≠ 2 then [Cmd.spindown d] else []))
    else (sts, [])

/-- The older `poweroff` loop. -/
def poweroffOld (timeout now : Int) (sR hR : DeviceId → Int) :
    List DeviceId → StateMap → StateMap × List Cmd
  | [], sts => (sts, [])
  | d :: rest, sts =>
    let r1 := poweroffDiskOld timeout now sR hR sts d
    let r2 := poweroffOld timeout now sR hR rest r1.1
    (r2.1, r1.2 ++ r2.2)

/-! ### Whole cycles, for the old/new refinement claim

Both versions run `poll(); compare(); poweroff()` per cycle.  `poll` is
byte-identical in the two versions up to the type of the stored pair, so a
cycle is fed the parsed snapshot map directly; `poll` keeps only tracked
devices, which is the `restrictSnap` below.  A cycle reading happens at one
clock value `now`. -/

/-- The snapshot map `poll` builds: tracked devices only. -/
def restrictSnap (disks : List DeviceId) (s : SnapMap) : SnapMap :=
  fun d => if d ∈ disks then s d else none

/-- One poll cycle of input: the parsed counter snapshot, the clock, and
the return codes of the two external tools. -/
structure CycleInput where
  snap : SnapMap
  now : Int
  sR : DeviceId → Int
  hR : DeviceId → Int

/-- Daemon state across cycles: the last stored snapshot (`self.diskstats`,
which the next cycle shifts into `self.diskstats_prev`) and the per-device
state records. -/
structure DaemonState where
  cur : SnapMap
  states : StateMap

/-- The initial state: both dictionaries empty. -/
def initState : DaemonState := ⟨fun _ => none, fun _ => none⟩

/-- One cycle of the newer version: `poll` shifts the stored snapshot into
the previous slot and restricts the fresh one to the tracked devices, then
`compare` and `poweroff` run. -/
def cycleNew (disks : List DeviceId) (timeout : Int) (st : DaemonState)
    (inp : CycleInput) : Except Unit (DaemonState × List Cmd) :=
  match compareNew inp.now st.cur (restrictSnap disks inp.snap) disks st.states with
  | Except.error e => Except.error e
  | Except.ok st2 =>
    Except.ok (⟨restrictSnap disks inp.snap,
        (poweroffNew timeout inp.now inp.sR inp.hR disks st2).1⟩,
      (poweroffNew timeout inp.now inp.sR inp.hR disks st2).2.1)

/-- One cycle of the older version (total: no KeyError is reachable). -/
def cycleOld (disks : List DeviceId) (timeout : Int) (st : DaemonState)
    (inp : CycleInput) : DaemonState × List Cmd :=
  (⟨restrictSnap disks inp.snap,
      (poweroffOld timeout inp.now inp.sR inp.hR disks
        (compareOld inp.now st.cur (restrictSnap disks inp.snap) disks
          st.states)).1⟩,
   (poweroffOld timeout inp.now inp.sR inp.hR disks
      (compareOld inp.now st.cur (restrictSnap disks inp.snap) disks
        st.states)).2)

/-- Run the newer version over a list of cycles, collecting the command
trace. -/
def runNew (disks : List DeviceId) (timeout : Int) :
    List CycleInput → DaemonState → Except Unit (DaemonState × List Cmd)
  | [], st => Except.ok (st, [])
  | inp :: rest, st =>
    match cycleNew disks timeout st inp with
    | Except.error e => Except.error e
    | Except.ok (st1, cmds1) =>
      match runNew disks timeout rest st1 with
      | Except.error e => Except.error e
      | Except.ok (st2, cmds2) => Except.ok (st2, cmds1 ++ cmds2)

/-- Run the older version over a list of cycles. -/
def runOld (disks : List DeviceId) (timeout : Int) :
    List CycleInput → DaemonState → DaemonState × List Cmd
  | [], st => (st, [])
  | inp :: rest, st =>
    let r1 := cycleOld disks timeout st inp
    let r2 := runOld disks timeout rest r1.1
    (r2.1, r1.2 ++ r2.2)

/-! ### Case equations for the newer `compare` step -/

theorem cdn_unchanged_none {prev cur : SnapMap} {d : DeviceId} {m : StateMap}
    {now : Int} (h : unchangedClass prev cur d = true) (h2 : m d = none) :
    compareDiskNew now prev cur m d = Except.error () := by
  simp [compareDiskNew, h, h2]

theorem cdn_unchanged_keep {prev cur : SnapMap} {d : DeviceId} {m : StateMap}
    {now : Int} {st : DiskState} (h : unchangedClass prev cur d = true)
    (h2 : m d = some st) (h3 : st.state = IDLE ∨ st.state = POWEROFF) :
    compareDiskNew now prev cur m d = Except.ok m := by
  rcases h3 with h3 | h3
  · simp [compareDiskNew, h, h2, h3]
  · simp [compareDiskNew, h, h2, h3]

theorem cdn_unchanged_set {prev cur : SnapMap} {d : DeviceId} {m : StateMap}
    {now : Int} {st : DiskState} (h : unchangedClass prev cur d = true)
    (h2 : m d = some st) (h3 : st.state = ACTIVE) :
    compareDiskNew now prev cur m d = Except.ok (setMap m d ⟨IDLE, now⟩) := by
  simp [compareDiskNew, h, h2, h3]

theorem cdn_changed_set {prev cur : SnapMap} {d : DeviceId} {m : StateMap}
    {now : Int} (h : unchangedClass prev cur d = false)
    (h2 : m d = none ∨ ∃ st, m d = some st ∧ st.state ≠ ACTIVE) :
    compareDiskNew now prev cur m d = Except.ok (setMap m d ⟨ACTIVE, now⟩) := by
  rcases h2 with h2 | ⟨st, h2, h3⟩
  · simp [compareDiskNew, h, h2]
  · simp [compareDiskNew, h, h2, h3]

theorem cdn_changed_keep {prev cur : SnapMap} {d : DeviceId} {m : StateMap}
    {now : Int} {st : DiskState} (h : unchangedClass prev cur d = false)
    (h2 : m d = some st) (h3 : st.state = ACTIVE) :
    compareDiskNew now prev cur m d = Except.ok m := by
  simp [compareDiskNew, h, h2, h3]

/-- A step for device `d` never changes the entry of another device. -/
theorem cdn_entry_other {prev cur : SnapMap} {d x : DeviceId} {m r : StateMap}
    {now : Int} (hx : x ≠ d)
    (h : compareDiskNew now prev cur m d = Except.ok r) : r x = m x := by
  by_cases hu : unchangedClass prev cur d = true
  · cases hmd : m d with
    | none =>
      rw [cdn_unchanged_none hu hmd] at h
      exact absurd h (by simp)
    | some st =>
      cases hst : st.state with
      | ACTIVE =>
        rw [cdn_unchanged_set hu hmd hst] at h
        injection h with h
        subst h
        exact setMap_other _ _ _ _ hx
      | IDLE =>
        rw [cdn_unchanged_keep hu hmd (Or.inl hst)] at h
        injection h with h
        subst h
        rfl
      | POWEROFF =>
        rw [cdn_unchanged_keep hu hmd (Or.inr hst)] at h
        injection h with h
        subst h
        rfl
  · have hu2 : unchangedClass prev cur d = false := by
      simpa using hu
    cases hmd : m d with
    | none =>
      rw [cdn_changed_set hu2 (Or.inl hmd)] at h
      injection h with h
      subst h
      exact setMap_other _ _ _ _ hx
    | some st =>
      by_cases hst : st.state = ACTIVE
      · rw [cdn_changed_keep hu2 hmd hst] at h
        injection h with h
        subst h
        rfl
      · rw [cdn_changed_set hu2 (Or.inr ⟨st, hmd, hst⟩)] at h
        injection h with h
        subst h
        exact setMap_other _ _ _ _ hx

theorem compareNew_nil {now : Int} {prev cur : SnapMap} {m : StateMap} :
    compareNew now prev cur [] m = Except.ok m := rfl

theorem compareNew_cons_error {now : Int} {prev cur : SnapMap} {m : StateMap}
    {d : DeviceId} {rest : List DeviceId} {e : Unit}
    (h : compareDiskNew now prev cur m d = Except.error e) :
    compareNew now prev cur (d :: rest) m = Except.error e := by
  unfold compareNew
  rw [h]

theorem compareNew_cons_ok {now : Int} {prev cur : SnapMap} {m m1 : StateMap}
    {d : DeviceId} {rest : List DeviceId}
    (h : compareDiskNew now prev cur m d = Except.ok m1) :
    compareNew now prev cur (d :: rest) m = compareNew now prev cur rest m1 := by
  simp only [compareNew]
  rw [h]

/-- If the step at `d` keeps any map whose entry at `d` is `v` untouched,
then a whole `compare` pass keeps the entry `v`. -/
theorem compareNew_keep {now : Int} {prev cur : SnapMap} {d : DeviceId}
    {v : Option DiskState}
    (hstep : ∀ m : StateMap, m d = v → compareDiskNew now prev cur m d = Except.ok m) :
    ∀ (l : List DeviceId) (m res : StateMap),
      compareNew now prev cur l m = Except.ok res → m d = v → res d = v := by
  intro l
  induction l with
  | nil =>
    intro m res h hv
    rw [compareNew_nil] at h
    injection h with h
    subst h
    exact hv
  | cons d2 rest ih =>
    intro m res h hv
    by_cases hd : d2 = d
    · subst hd
      rw [compareNew_cons_ok (hstep m hv)] at h
      exact ih m res h hv
    · cases hstep2 : compareDiskNew now prev cur m d2 with
      | error e =>
        rw [compareNew_cons_error hstep2] at h
        exact absurd h (by simp)
      | ok m1 =>
        rw [compareNew_cons_ok hstep2] at h
        have hx : m1 d = m d := cdn_entry_other (fun hh => hd hh.symm) hstep2
        exact ih m1 res h (by rw [hx, hv])

/-- A changed device whose record is missing or not ACTIVE ends the pass at
`⟨ACTIVE, now⟩`. -/
theorem compareNew_changed_active {now : Int} {prev cur : SnapMap} {d : DeviceId}
    (hch : unchangedClass prev cur d = false) :
    ∀ (l : List DeviceId) (m res : StateMap), d ∈ l →
      compareNew now prev cur l m = Except.ok res →
      (m d = none ∨ ∃ st, m d = some st ∧ st.state ≠ ACTIVE) →
      res d = some ⟨ACTIVE, now⟩ := by
  have hstable : ∀ m2 : StateMap, m2 d = some ⟨ACTIVE, now⟩ →
      compareDiskNew now prev cur m2 d = Except.ok m2 := by
    intro m2 hm2
    exact cdn_changed_keep hch hm2 rfl
  intro l
  induction l with
  | nil =>
    intro m res hmem
    exact absurd hmem (List.not_mem_nil d)
  | cons d2 rest ih =>
    intro m res hmem h hm
    by_cases hd : d2 = d
    · subst hd
      rw [compareNew_cons_ok (cdn_changed_set hch hm)] at h
      exact compareNew_keep hstable rest _ res h (setMap_same _ _ _)
    · cases hstep2 : compareDiskNew now prev cur m d2 with
      | error e =>
        rw [compareNew_cons_error hstep2] at h
        exact absurd h (by simp)
      | ok m1 =>
        rw [compareNew_cons_ok hstep2] at h
        have hmem2 : d ∈ rest := by
          rcases List.mem_cons.mp hmem with h1 | h1
          · exact absurd h1.symm hd
          · exact h1
        have hx : m1 d = m d := cdn_entry_other (fun hh => hd hh.symm) hstep2
        exact ih m1 res hmem2 h (by rw [hx]; exact hm)

/-- An unchanged device whose record is ACTIVE ends the pass at
`⟨IDLE, now⟩`. -/
theorem compareNew_unchanged_idle {now : Int} {prev cur : SnapMap} {d : DeviceId}
    (hun : unchangedClass prev cur d = true) :
    ∀ (l : List DeviceId) (m res : StateMap), d ∈ l →
      compareNew now prev cur l m = Except.ok res →
      (∃ st, m d = some st ∧ st.state = ACTIVE) →
      res d = some ⟨IDLE, now⟩ := by
  have hstable : ∀ m2 : StateMap, m2 d = some ⟨IDLE, now⟩ →
      compareDiskNew now prev cur m2 d = Except.ok m2 := by
    intro m2 hm2
    exact cdn_unchanged_keep hun hm2 (Or.inl rfl)
  intro l
  induction l with
  | nil =>
    intro m res hmem
    exact absurd hmem (List.not_mem_nil d)
  | cons d2 rest ih =>
    intro m res hmem h hm
    obtain ⟨st, hmd, hst⟩ := hm
    by_cases hd : d2 = d
    · subst hd
      rw [compareNew_cons_ok (cdn_unchanged_set hun hmd hst)] at h
      exact compareNew_keep hstable rest _ res h (setMap_same _ _ _)
    · cases hstep2 : compareDiskNew now prev cur m d2 with
      | error e =>
        rw [compareNew_cons_error hstep2] at h
        exact absurd h (by simp)
      | ok m1 =>
        rw [compareNew_cons_ok hstep2] at h
        have hmem2 : d ∈ rest := by
          rcases List.mem_cons.mp hmem with h1 | h1
          · exact absurd h1.symm hd
          · exact h1
        have hx : m1 d = m d := cdn_entry_other (fun hh => hd hh.symm) hstep2
        exact ih m1 res hmem2 h ⟨st, by rw [hx]; exact hmd, hst⟩

/-- An unchanged device with no record makes the pass raise KeyError. -/
theorem compareNew_unchanged_none_error {now : Int} {prev cur : SnapMap}
    {d : DeviceId} (hun : unchangedClass prev cur d = true) :
    ∀ (l : List DeviceId) (m : StateMap), d ∈ l → m d = none →
      compareNew now prev cur l m = Except.error () := by
  intro l
  induction l with
  | nil =>
    intro m hmem
    exact absurd hmem (List.not_mem_nil d)
  | cons d2 rest ih =>
    intro m hmem hm
    by_cases hd : d2 = d
    · subst hd
      exact compareNew_cons_error (cdn_unchanged_none hun hm)
    · cases hstep2 : compareDiskNew now prev cur m d2 with
      | error e =>
        cases e
        exact compareNew_cons_error hstep2
      | ok m1 =>
        rw [compareNew_cons_ok hstep2]
        have hmem2 : d ∈ rest := by
          rcases List.mem_cons.mp hmem with h1 | h1
          · exact absurd h1.symm hd
          · exact h1
        have hx : m1 d = m d := cdn_entry_other (fun hh => hd hh.symm) hstep2
        exact ih m1 hmem2 (by rw [hx]; exact hm)

/-! ### Case equations for the newer `poweroff` step -/

theorem pdn_none {t n : Int} {sR hR : DeviceId → Int} {m : StateMap}
    {d : DeviceId} (h : m d = none) :
    poweroffDiskNew t n sR hR m d = (m, [], []) := by
  simp [poweroffDiskNew, h]

theorem pdn_inelig {t n : Int} {sR hR : DeviceId → Int} {m : StateMap}
    {d : DeviceId} {st : DiskState} (h : m d = some st)
    (h2 : ¬ eligible t n st) :
    poweroffDiskNew t n sR hR m d = (m, [], []) := by
  simp only [poweroffDiskNew, h]
  rw [if_neg h2]

theorem pdn_elig {t n : Int} {sR hR : DeviceId → Int} {m : StateMap}
    {d : DeviceId} {st : DiskState} (h : m d = some st)
    (h2 : eligible t n st) :
    poweroffDiskNew t n sR hR m d =
      (setMap m d ⟨POWEROFF, st.timestamp⟩,
       Cmd.query d :: (if sR d ≠ 2 then [Cmd.spindown d] else []),
       (if sR d ≠ 2 then
          (if hR d ≠ 0 then [LogEvent.errHdparmFailed d] else [])
        else [])
         ++ (if st.state ≠ POWEROFF then [LogEvent.dbgStatePoweroff d] else [])) := by
  simp only [poweroffDiskNew, h]
  rw [if_pos h2]

/-- A `poweroff` step for device `d` never changes another entry. -/
theorem pdn_entry_other {t n : Int} {sR hR : DeviceId → Int} {m : StateMap}
    {d x : DeviceId} (hx : x ≠ d) :
    (poweroffDiskNew t n sR hR m d).1 x = m x := by
  cases h : m d with
  | none => rw [pdn_none h]
  | some st =>
    by_cases h2 : eligible t n st
    · rw [pdn_elig h h2]
      exact setMap_other _ _ _ _ hx
    · rw [pdn_inelig h h2]

/-- A `poweroff` step only issues commands for its own device. -/
theorem pdn_cmds_dev {t n : Int} {sR hR : DeviceId → Int} {m : StateMap}
    {d : DeviceId} {c : Cmd} (hc : c ∈ (poweroffDiskNew t n sR hR m d).2.1) :
    c = Cmd.query d ∨ c = Cmd.spindown d := by
  cases h : m d with
  | none =>
    rw [pdn_none h] at hc
    exact absurd hc (List.not_mem_nil c)
  | some st =>
    by_cases h2 : eligible t n st
    · rw [pdn_elig h h2] at hc
      by_cases hs : sR d ≠ 2
      · simp [hs] at hc
        tauto
      · simp [hs] at hc
        tauto
    · rw [pdn_inelig h h2] at hc
      exact absurd hc (List.not_mem_nil c)

/-- A `poweroff` step never changes the timestamp stored for any device. -/
theorem pdn_ts {t n : Int} {sR hR : DeviceId → Int} {m : StateMap}
    {d x : DeviceId} :
    ((poweroffDiskNew t n sR hR m d).1 x).map DiskState.timestamp
      = (m x).map DiskState.timestamp := by
  by_cases hx : x = d
  · subst hx
    cases h : m x with
    | none =>
      rw [pdn_none h]
      simp [h]
    | some st =>
      by_cases h2 : eligible t n st
      · rw [pdn_elig h h2]
        simp [setMap, h]
      · rw [pdn_inelig h h2]
        simp [h]
  · rw [pdn_entry_other hx]

theorem pn_nil {t n : Int} {sR hR : DeviceId → Int} {m : StateMap} :
    poweroffNew t n sR hR [] m = (m, [], []) := rfl

theorem pn_cons {t n : Int} {sR hR : DeviceId → Int} {m : StateMap}
    {d : DeviceId} {rest : List DeviceId} :
    poweroffNew t n sR hR (d :: rest) m =
      ((poweroffNew t n sR hR rest (poweroffDiskNew t n sR hR m d).1).1,
       (poweroffDiskNew t n sR hR m d).2.1
         ++ (poweroffNew t n sR hR rest (poweroffDiskNew t n sR hR m d).1).2.1,
       (poweroffDiskNew t n sR hR m d).2.2
         ++ (poweroffNew t n sR hR rest (poweroffDiskNew t n sR hR m d).1).2.2) := rfl

/-- A whole `poweroff` pass never changes any stored timestamp. -/
theorem pn_ts {t n : Int} {sR hR : DeviceId → Int} {x : DeviceId} :
    ∀ (l : List DeviceId) (m : StateMap),
      ((poweroffNew t n sR hR l m).1 x).map DiskState.timestamp
        = (m x).map DiskState.timestamp := by
  intro l
  induction l with
  | nil => intro m; rfl
  | cons d rest ih =>
    intro m
    rw [pn_cons]
    exact (ih _).trans pdn_ts

/-- Every command of a `poweroff` pass names a device of the list. -/
theorem pn_cmds_subset {t n : Int} {sR hR : DeviceId → Int} {c : Cmd} :
    ∀ (l : List DeviceId) (m : StateMap),
      c ∈ (poweroffNew t n sR hR l m).2.1 →
      ∃ d ∈ l, c = Cmd.query d ∨ c = Cmd.spindown d := by
  intro l
  induction l with
  | nil =>
    intro m hc
    exact absurd hc (List.not_mem_nil c)
  | cons d rest ih =>
    intro m hc
    rw [pn_cons] at hc
    rcases List.mem_append.mp hc with hc | hc
    · exact ⟨d, List.mem_cons_self d rest, pdn_cmds_dev hc⟩
    · obtain ⟨d2, hd2, hor⟩ := ih _ hc
      exact ⟨d2, List.mem_cons_of_mem d hd2, hor⟩

/-- A device that is ineligible at every occurrence gets no command and
keeps its entry. -/
theorem pn_inelig {t n : Int} {sR hR : DeviceId → Int} {d : DeviceId} :
    ∀ (l : List DeviceId) (m : StateMap),
      (∀ st, m d = some st → ¬ eligible t n st) →
      (poweroffNew t n sR hR l m).1 d = m d
      ∧ Cmd.query d ∉ (poweroffNew t n sR hR l m).2.1
      ∧ Cmd.spindown d ∉ (poweroffNew t n sR hR l m).2.1 := by
  intro l
  induction l with
  | nil =>
    intro m hm
    exact ⟨rfl, List.not_mem_nil _, List.not_mem_nil _⟩
  | cons d2 rest ih =>
    intro m hm
    rw [pn_cons]
    by_cases hd : d2 = d
    · subst hd
      have hstep : poweroffDiskNew t n sR hR m d2 = (m, [], []) := by
        cases h : m d2 with
        | none => exact pdn_none h
        | some st => exact pdn_inelig h (hm st h)
      rw [hstep]
      simpa using ih m hm
    · have hpres : (poweroffDiskNew t n sR hR m d2).1 d = m d :=
        pdn_entry_other (fun hh => hd hh.symm)
      obtain ⟨ih1, ih2, ih3⟩ := ih (poweroffDiskNew t n sR hR m d2).1
        (fun st hst => hm st (hpres ▸ hst))
      refine ⟨ih1.trans hpres, ?_, ?_⟩
      · intro hc
        rcases List.mem_append.mp hc with hc | hc
        · rcases pdn_cmds_dev hc with hh | hh <;> simp at hh
          exact hd hh.symm
        · exact ih2 hc
      · intro hc
        rcases List.mem_append.mp hc with hc | hc
        · rcases pdn_cmds_dev hc with hh | hh <;> simp at hh
          exact hd hh.symm
        · exact ih3 hc

/-- A record `⟨POWEROFF, ts⟩` past the timeout is kept exactly by a pass. -/
theorem pn_stable {t n : Int} {sR hR : DeviceId → Int} {d : DeviceId} {ts : Int}
    (htime : t ≤ n - ts) :
    ∀ (l : List DeviceId) (m : StateMap), m d = some ⟨POWEROFF, ts⟩ →
      (poweroffNew t n sR hR l m).1 d = some ⟨POWEROFF, ts⟩ := by
  intro l
  induction l with
  | nil =>
    intro m hm
    exact hm
  | cons d2 rest ih =>
    intro m hm
    rw [pn_cons]
    by_cases hd : d2 = d
    · subst hd
      have he : eligible t n ⟨POWEROFF, ts⟩ := ⟨Or.inr rfl, htime⟩
      rw [pdn_elig hm he]
      exact ih _ (setMap_same _ _ _)
    · have hpres : (poweroffDiskNew t n sR hR m d2).1 d = m d :=
        pdn_entry_other (fun hh => hd hh.symm)
      exact ih _ (hpres.trans hm)

/-- An eligible tracked device gets its query (and, unless smartctl reports
standby, its spin-down and on failure the error log), and ends the pass at
`⟨POWEROFF, old timestamp⟩`. -/
theorem pn_elig_effects {t n : Int} {sR hR : DeviceId → Int} {d : DeviceId}
    {st : DiskState} (hel : eligible t n st) :
    ∀ (l : List DeviceId) (m : StateMap), d ∈ l → m d = some st →
      (poweroffNew t n sR hR l m).1 d = some ⟨POWEROFF, st.timestamp⟩
      ∧ Cmd.query d ∈ (poweroffNew t n sR hR l m).2.1
      ∧ (sR d ≠ 2 → Cmd.spindown d ∈ (poweroffNew t n sR hR l m).2.1
          ∧ (hR d ≠ 0 →
              LogEvent.errHdparmFailed d ∈ (poweroffNew t n sR hR l m).2.2)) := by
  intro l
  induction l with
  | nil =>
    intro m hmem
    exact absurd hmem (List.not_mem_nil d)
  | cons d2 rest ih =>
    intro m hmem hm
    rw [pn_cons]
    by_cases hd : d2 = d
    · subst hd
      rw [pdn_elig hm hel]
      refine ⟨?_, ?_, ?_⟩
      · exact pn_stable hel.2 rest _ (setMap_same _ _ _)
      · exact List.mem_append_left _ (List.mem_cons_self _ _)
      · intro hs
        constructor
        · apply List.mem_append_left
          simp [hs]
        · intro hh
          apply List.mem_append_left
          simp [hs, hh]
    · have hpres : (poweroffDiskNew t n sR hR m d2).1 d = m d :=
        pdn_entry_other (fun hh => hd hh.symm)
      have hmem2 : d ∈ rest := by
        rcases List.mem_cons.mp hmem with h1 | h1
        · exact absurd h1.symm hd
        · exact h1
      obtain ⟨i1, i2, i3⟩ := ih _ hmem2 (hpres.trans hm)
      refine ⟨i1, List.mem_append_right _ i2, fun hs => ?_⟩
      obtain ⟨j1, j2⟩ := i3 hs
      exact ⟨List.mem_append_right _ j1, fun hh => List.mem_append_right _ (j2 hh)⟩

/-- No command of a pass names a device outside the list. -/
theorem pn_cmds_not_mem {t n : Int} {sR hR : DeviceId → Int} {d : DeviceId}
    {l : List DeviceId} {m : StateMap} (hd : d ∉ l) :
    Cmd.query d ∉ (poweroffNew t n sR hR l m).2.1
    ∧ Cmd.spindown d ∉ (poweroffNew t n sR hR l m).2.1 := by
  constructor
  · intro hc
    obtain ⟨d2, hd2, hor⟩ := pn_cmds_subset l m hc
    rcases hor with h | h
    · injection h with h
      exact hd (h ▸ hd2)
    · exact Cmd.noConfusion h
  · intro hc
    obtain ⟨d2, hd2, hor⟩ := pn_cmds_subset l m hc
    rcases hor with h | h
    · exact Cmd.noConfusion h
    · injection h with h
      exact hd (h ▸ hd2)

/-- On a duplicate-free list an eligible device gets exactly one query, and
exactly one spin-down unless smartctl reports standby. -/
theorem pn_elig_count {t n : Int} {sR hR : DeviceId → Int} {d : DeviceId}
    {st : DiskState} (hel : eligible t n st) :
    ∀ (l : List DeviceId) (m : StateMap), l.Nodup → d ∈ l → m d = some st →
      (poweroffNew t n sR hR l m).2.1.count (Cmd.query d) = 1
      ∧ (sR d = 2 → Cmd.spindown d ∉ (poweroffNew t n sR hR l m).2.1)
      ∧ (sR d ≠ 2 → (poweroffNew t n sR hR l m).2.1.count (Cmd.spindown d) = 1) := by
  intro l
  induction l with
  | nil =>
    intro m _ hmem
    exact absurd hmem (List.not_mem_nil d)
  | cons d2 rest ih =>
    intro m hnd hmem hm
    rw [pn_cons]
    by_cases hd : d2 = d
    · subst hd
      have hdrest : d2 ∉ rest := (List.nodup_cons.mp hnd).1
      rw [pdn_elig hm hel]
      have hnc := @pn_cmds_not_mem t n sR hR d2 rest
        (setMap m d2 ⟨POWEROFF, st.timestamp⟩) hdrest
      refine ⟨?_, ?_, ?_⟩
      · rw [List.count_append, List.count_eq_zero.mpr hnc.1]
        by_cases hs : sR d2 ≠ 2
        · simp [hs, List.count_cons]
        · simp [hs, List.count_cons]
      · intro hs hc
        rcases List.mem_append.mp hc with hc | hc
        · simp [hs] at hc
        · exact hnc.2 hc
      · intro hs
        rw [List.count_append, List.count_eq_zero.mpr hnc.2]
        simp [hs, List.count_cons]
    · have hdrest : d2 ∉ rest ∧ rest.Nodup := List.nodup_cons.mp hnd
      have hpres : (poweroffDiskNew t n sR hR m d2).1 d = m d :=
        pdn_entry_other (fun hh => hd hh.symm)
      have hmem2 : d ∈ rest := by
        rcases List.mem_cons.mp hmem with h1 | h1
        · exact absurd h1.symm hd
        · exact h1
      obtain ⟨i1, i2, i3⟩ := ih _ hdrest.2 hmem2 (hpres.trans hm)
      have hq : Cmd.query d ∉ (poweroffDiskNew t n sR hR m d2).2.1 := by
        intro hc
        rcases pdn_cmds_dev hc with h | h
        · injection h with h
          exact hd h.symm
        · exact Cmd.noConfusion h
      have hsp : Cmd.spindown d ∉ (poweroffDiskNew t n sR hR m d2).2.1 := by
        intro hc
        rcases pdn_cmds_dev hc with h | h
        · exact Cmd.noConfusion h
        · injection h with h
          exact hd h.symm
      refine ⟨?_, ?_, ?_⟩
      · rw [List.count_append, List.count_eq_zero.mpr hq, i1]
      · intro hs hc
        rcases List.mem_append.mp hc with hc | hc
        · exact hsp hc
        · exact i2 hs hc
      · intro hs
        rw [List.count_append, List.count_eq_zero.mpr hsp, i3 hs]

/-! ### Old/new simulation (for the refinement claim)

The refinement relation: the two state stores carry the same label for
every device and identical records wherever the label is not ACTIVE — the
only divergence the rewrite introduced is the timestamp of a device that is
already ACTIVE when a changed tick occurs (the older version refreshes it,
the newer leaves it), and that timestamp never reaches a command decision
because `poweroff` ignores ACTIVE devices. -/
def StRel (oldM newM : StateMap) : Prop :=
  (∀ x, (oldM x).map DiskState.state = (newM x).map DiskState.state)
  ∧ (∀ x st, newM x = some st → st.state ≠ ACTIVE → oldM x = some st)

/-- Writing the same record on both sides preserves the relation. -/
theorem StRel_set {oM nM : StateMap} (hrel : StRel oM nM) (d : DeviceId)
    (v : DiskState) : StRel (setMap oM d v) (setMap nM d v) := by
  constructor
  · intro x
    by_cases hx : x = d
    · subst hx
      rw [setMap_same, setMap_same]
    · rw [setMap_other _ _ _ _ hx, setMap_other _ _ _ _ hx]
      exact hrel.1 x
  · intro x st2 hset hact
    by_cases hx : x = d
    · subst hx
      rw [setMap_same] at hset ⊢
      exact hset
    · rw [setMap_other _ _ _ _ hx] at hset ⊢
      exact hrel.2 x st2 hset hact

/-- The two versions compute the same classification. -/
theorem oldUnchanged_eq (prev cur : SnapMap) (d : DeviceId) :
    oldUnchangedClass prev cur d = unchangedClass prev cur d := by
  unfold unchangedClass oldUnchangedClass
  cases cur d <;> cases prev d <;> rfl

/-- An unchanged classification needs a previous snapshot. -/
theorem unchanged_prev_isSome {prev cur : SnapMap} {d : DeviceId}
    (h : unchangedClass prev cur d = true) : (prev d).isSome := by
  unfold unchangedClass at h
  cases hc : cur d <;> rw [hc] at h
  · cases hp : prev d <;> rw [hp] at h <;> simp_all
  · cases hp : prev d <;> rw [hp] at h <;> simp_all

/-! Case equations for the older `compare` step. -/

theorem cdo_unchanged_keep {prev cur : SnapMap} {d : DeviceId} {sts : StateMap}
    {now : Int} (h : oldUnchangedClass prev cur d = true)
    (h2 : (sts d).map DiskState.state = some IDLE
      ∨ (sts d).map DiskState.state = some POWEROFF) :
    compareDiskOld now prev cur sts d = sts := by
  rcases h2 with h2 | h2
  · simp [compareDiskOld, h, h2]
  · simp [compareDiskOld, h, h2]

theorem cdo_unchanged_set {prev cur : SnapMap} {d : DeviceId} {sts : StateMap}
    {now : Int} (h : oldUnchangedClass prev cur d = true)
    (h2 : (sts d).map DiskState.state ≠ some IDLE)
    (h3 : (sts d).map DiskState.state ≠ some POWEROFF) :
    compareDiskOld now prev cur sts d = setMap sts d ⟨IDLE, now⟩ := by
  simp [compareDiskOld, h, h2, h3]

theorem cdo_changed {prev cur : SnapMap} {d : DeviceId} {sts : StateMap}
    {now : Int} (h : oldUnchangedClass prev cur d = false) :
    compareDiskOld now prev cur sts d = setMap sts d ⟨ACTIVE, now⟩ := by
  simp [compareDiskOld, h]

/-- The per-device `compare` simulation: given the relation and a record
for the device whenever the classification is unchanged (no KeyError), the
newer step succeeds and the relation is preserved; entries are never
deleted and the device ends with a record. -/
theorem compare_step_sim {now : Int} {prev cur : SnapMap} {oM nM : StateMap}
    {d : DeviceId} (hrel : StRel oM nM)
    (hsome : unchangedClass prev cur d = true → (nM d).isSome) :
    ∃ n1, compareDiskNew now prev cur nM d = Except.ok n1
      ∧ StRel (compareDiskOld now prev cur oM d) n1
      ∧ (∀ x, (nM x).isSome → (n1 x).isSome)
      ∧ (n1 d).isSome := by
  by_cases hu : unchangedClass prev cur d = true
  · have huo : oldUnchangedClass prev cur d = true := by
      rw [oldUnchanged_eq]
      exact hu
    obtain ⟨st, hst⟩ := Option.isSome_iff_exists.mp (hsome hu)
    have hlab : (oM d).map DiskState.state = some st.state := by
      rw [hrel.1 d, hst]
      rfl
    cases hstt : st.state with
    | ACTIVE =>
      refine ⟨setMap nM d ⟨IDLE, now⟩, cdn_unchanged_set hu hst hstt, ?_, ?_, ?_⟩
      · rw [cdo_unchanged_set huo (by rw [hlab, hstt]; simp)
          (by rw [hlab, hstt]; simp)]
        exact StRel_set hrel d ⟨IDLE, now⟩
      · intro x hx
        by_cases hxd : x = d
        · subst hxd
          rw [setMap_same]
          rfl
        · rw [setMap_other _ _ _ _ hxd]
          exact hx
      · rw [setMap_same]
        rfl
    | IDLE =>
      refine ⟨nM, cdn_unchanged_keep hu hst (Or.inl hstt), ?_, fun x hx => hx, ?_⟩
      · rw [cdo_unchanged_keep huo (Or.inl (by rw [hlab, hstt]))]
        exact hrel
      · rw [hst]
        rfl
    | POWEROFF =>
      refine ⟨nM, cdn_unchanged_keep hu hst (Or.inr hstt), ?_, fun x hx => hx, ?_⟩
      · rw [cdo_unchanged_keep huo (Or.inr (by rw [hlab, hstt]))]
        exact hrel
      · rw [hst]
        rfl
  · have hu2 : unchangedClass prev cur d = false := by
      simpa using hu
    have huo : oldUnchangedClass prev cur d = false := by
      rw [oldUnchanged_eq]
      exact hu2
    rw [cdo_changed huo]
    cases hst : nM d with
    | none =>
      refine ⟨setMap nM d ⟨ACTIVE, now⟩, cdn_changed_set hu2 (Or.inl hst), ?_, ?_, ?_⟩
      · exact StRel_set hrel d ⟨ACTIVE, now⟩
      · intro x hx
        by_cases hxd : x = d
        · subst hxd
          rw [setMap_same]
          rfl
        · rw [setMap_other _ _ _ _ hxd]
          exact hx
      · rw [setMap_same]
        rfl
    | some st =>
      by_cases hstt : st.state = ACTIVE
      · refine ⟨nM, cdn_changed_keep hu2 hst hstt, ?_, fun x hx => hx, ?_⟩
        · constructor
          · intro x
            by_cases hxd : x = d
            · subst hxd
              rw [setMap_same, hst]
              simp [hstt]
            · rw [setMap_other _ _ _ _ hxd]
              exact hrel.1 x
          · intro x st2 hset hact
            by_cases hxd : x = d
            · subst hxd
              rw [hst] at hset
              injection hset with hset
              subst hset
              exact absurd hstt hact
            · rw [setMap_other _ _ _ _ hxd]
              exact hrel.2 x st2 hset hact
        · rw [hst]
          rfl
      · refine ⟨setMap nM d ⟨ACTIVE, now⟩,
          cdn_changed_set hu2 (Or.inr ⟨st, hst, hstt⟩), ?_, ?_, ?_⟩
        · exact StRel_set hrel d ⟨ACTIVE, now⟩
        · intro x hx
          by_cases hxd : x = d
          · subst hxd
            rw [setMap_same]
            rfl
          · rw [setMap_other _ _ _ _ hxd]
            exact hx
        · rw [setMap_same]
          rfl

/-! ### Poll lemmas -/

theorem pollLines_cons_error {disks : List DeviceId} {line : String}
    {rest : List String} {m : SnapMap} {e : Unit}
    (h : parse_diskstats_line line = Except.error e) :
    pollLines disks (line :: rest) m = Except.error e := by
  simp only [pollLines]
  rw [h]

theorem pollLines_cons_ok {disks : List DeviceId} {line : String}
    {rest : List String} {m : SnapMap} {d r w : String}
    (h : parse_diskstats_line line = Except.ok (d, r, w)) :
    pollLines disks (line :: rest) m =
      pollLines disks rest (if d ∈ disks then setMap m d ⟨r, w⟩ else m) := by
  simp only [pollLines]
  rw [h]

/-- A device outside the tracked list is never recorded by `poll`. -/
theorem pollLines_not_tracked {disks : List DeviceId} {d0 : DeviceId}
    (hd : d0 ∉ disks) :
    ∀ (l : List String) (m : SnapMap), m d0 = none →
      ∀ res, pollLines disks l m = Except.ok res → res d0 = none := by
  intro l
  induction l with
  | nil =>
    intro m hm res hres
    rw [pollLines] at hres
    injection hres with hres
    subst hres
    exact hm
  | cons line rest ih =>
    intro m hm res hres
    cases hp : parse_diskstats_line line with
    | error e =>
      rw [pollLines_cons_error hp] at hres
      exact absurd hres (by simp)
    | ok trip =>
      obtain ⟨d, r, w⟩ := trip
      rw [pollLines_cons_ok hp] at hres
      refine ih _ ?_ res hres
      by_cases hdd : d ∈ disks
      · rw [if_pos hdd]
        have hne : d0 ≠ d := by
          intro hh
          rw [hh] at hd
          exact hd hdd
        rw [setMap_other _ _ _ _ hne]
        exact hm
      · rw [if_neg hdd]
        exact hm

/-! ### Concrete fixtures for the witnesses and counterexamples -/

/-- A snapshot map holding sda with counters (100, 200). -/
def snapFix : SnapMap :=
  fun d => if d = "sda" then some ⟨"100", "200"⟩ else none

/-- A snapshot map holding sda with different counters (101, 200). -/
def snapFix2 : SnapMap :=
  fun d => if d = "sda" then some ⟨"101", "200"⟩ else none

/-- sda recorded IDLE since time 5. -/
def statesIdleFix : StateMap :=
  fun d => if d = "sda" then some ⟨IDLE, 5⟩ else none

/-- sda recorded ACTIVE since time 5. -/
def statesActiveFix : StateMap :=
  fun d => if d = "sda" then some ⟨ACTIVE, 5⟩ else none

/-- No device recorded. -/
def statesEmptyFix : StateMap := fun _ => none

/-- One well-formed diskstats line followed by a malformed one. -/
def diskstatsLinesFix : List String :=
  ["8 0 sda 1 2 3 4 5 6 7 8 9", "bad line"]

/-- A config whose numeric values are both invalid. -/
def cfgBadFix : String → Option String :=
  fun k =>
    if k = "timeout" then some "abc" else
    if k = "polling_interval" then some "12.5" else none

/-- A config listing one present and one absent device. -/
def cfgDevFix : String → Option String :=
  fun k => if k = "devices" then some " sdb , /dev/sda " else none

/-! ### The claims -/

/-- Claim C1: for every pair of snapshot maps and every device, the
classification is unchanged if and only if both the previous and the
current snapshot exist and their (sectors-read, sectors-written) token
pairs are equal; in every other case it is changed (the Bool is false).
The second conjunct checks the older version computes the same
classification. -/
theorem claim_c1_activity_classification (prev cur : SnapMap) (d : DeviceId) :
    (unchangedClass prev cur d = true ↔
      ∃ p c, prev d = some p ∧ cur d = some c
        ∧ p.sectors_read = c.sectors_read
        ∧ p.sectors_written = c.sectors_written)
    ∧ oldUnchangedClass prev cur d = unchangedClass prev cur d := by
  constructor
  · cases hc : cur d with
    | none => simp [unchangedClass, hc]
    | some c =>
      cases hp : prev d with
      | none => simp [unchangedClass, hc, hp]
      | some p =>
        simp only [unchangedClass, hc, hp]
        constructor
        · intro h
          have hpc : p = c := of_decide_eq_true h
          exact ⟨p, c, rfl, rfl, by rw [hpc], by rw [hpc]⟩
        · rintro ⟨p2, c2, hp2, hc2, h1, h2⟩
          injection hp2 with hp2
          injection hc2 with hc2
          subst hp2
          subst hc2
          apply decide_eq_true
          obtain ⟨pr, pw⟩ := p
          obtain ⟨cr, cw⟩ := c
          simp_all
  · unfold unchangedClass oldUnchangedClass
    cases cur d <;> cases prev d <;> rfl

/-- Claim C3: a tracked device already IDLE or POWEROFF whose snapshots are
unchanged keeps its record (state and timestamp) exactly through `compare`,
and the whole cycle (`poweroff` included) keeps its timestamp, so
time-in-state accumulates across polls. -/
theorem claim_c3_idle_idempotent (disks : List DeviceId) (prev cur : SnapMap)
    (now t n2 : Int) (sR hR : DeviceId → Int) (states res : StateMap)
    (d : DeviceId) (st : DiskState) (hst : states d = some st)
    (hlab : st.state = IDLE ∨ st.state = POWEROFF)
    (hunch : unchangedClass prev cur d = true)
    (hok : compareNew now prev cur disks states = Except.ok res) :
    res d = some st
    ∧ ((poweroffNew t n2 sR hR disks res).1 d).map DiskState.timestamp
        = some st.timestamp := by
  have h1 : res d = some st := by
    refine compareNew_keep (v := some st) ?_ disks states res hok hst
    intro m2 hm2
    exact cdn_unchanged_keep hunch hm2 hlab
  refine ⟨h1, ?_⟩
  rw [pn_ts disks res, h1]
  rfl

theorem claim_c3_witness :
    statesIdleFix "sda" = some ⟨IDLE, 5⟩
    ∧ ((poweroffNew 1800 2000 (fun _ => 0) (fun _ => 0) ["sda"]
          statesIdleFix).1 "sda").map DiskState.timestamp = some 5 :=
  claim_c3_idle_idempotent ["sda"] snapFix snapFix 7 1800 2000
    (fun _ => 0) (fun _ => 0) statesIdleFix statesIdleFix "sda" ⟨IDLE, 5⟩
    rfl (Or.inl rfl) rfl rfl

/-- Claim C4: on a changed classification, a tracked device that is not
already ACTIVE (or has no record) transitions to ACTIVE with timestamp =
now; one that is already ACTIVE keeps its stored record untouched. -/
theorem claim_c4_changed_transition (disks : List DeviceId) (prev cur : SnapMap)
    (now : Int) (states res : StateMap) (d : DeviceId)
    (hmem : d ∈ disks) (hch : unchangedClass prev cur d = false)
    (hok : compareNew now prev cur disks states = Except.ok res) :
    ((states d = none ∨ ∃ st, states d = some st ∧ st.state ≠ ACTIVE) →
      res d = some ⟨ACTIVE, now⟩)
    ∧ (∀ st, states d = some st → st.state = ACTIVE → res d = some st) := by
  constructor
  · intro hm
    exact compareNew_changed_active hch disks states res hmem hok hm
  · intro st hst hact
    refine compareNew_keep (v := some st) ?_ disks states res hok hst
    intro m2 hm2
    exact cdn_changed_keep hch hm2 hact

theorem claim_c4_witness :
    (setMap statesIdleFix "sda" ⟨ACTIVE, 9⟩) "sda" = some ⟨ACTIVE, 9⟩ :=
  (claim_c4_changed_transition ["sda"] snapFix snapFix2 9 statesIdleFix
      (setMap statesIdleFix "sda" ⟨ACTIVE, 9⟩) "sda" (by decide) rfl rfl).1
    (Or.inr ⟨⟨IDLE, 5⟩, rfl, by decide⟩)

/-- Claim C5, counterexample to the claim as stated: with unchanged
snapshots and no prior state record, the newer `compare` does fail — the
unguarded `self.disk_states[disk]` raises KeyError — instead of moving the
device to Idle. -/
theorem claim_c5_counterexample :
    compareNew 7 snapFix snapFix ["sda"] statesEmptyFix = Except.error () := rfl

/-- Claim C5 as amended: on an unchanged classification a tracked device
whose state is ACTIVE transitions to Idle with timestamp = now, but a
device with no prior state record makes `compare` raise KeyError (the
situation is unreachable in the daemon loop, which always records a state
before a device can have two snapshots). -/
theorem claim_c5_amended (disks : List DeviceId) (prev cur : SnapMap)
    (now : Int) (states : StateMap) (d : DeviceId)
    (hmem : d ∈ disks) (hunch : unchangedClass prev cur d = true) :
    (∀ st res, states d = some st → st.state = ACTIVE →
      compareNew now prev cur disks states = Except.ok res →
      res d = some ⟨IDLE, now⟩)
    ∧ (states d = none →
        compareNew now prev cur disks states = Except.error ()) := by
  constructor
  · intro st res hst hact hok
    exact compareNew_unchanged_idle hunch disks states res hmem hok ⟨st, hst, hact⟩
  · intro hnone
    exact compareNew_unchanged_none_error hunch disks states hmem hnone

theorem claim_c5_witness :
    (setMap statesActiveFix "sda" ⟨IDLE, 7⟩) "sda" = some ⟨IDLE, 7⟩
    ∧ compareNew 7 snapFix snapFix ["sda"] statesEmptyFix = Except.error () :=
  let h := claim_c5_amended ["sda"] snapFix snapFix 7 statesActiveFix "sda"
    (by decide) rfl
  let h2 := claim_c5_amended ["sda"] snapFix snapFix 7 statesEmptyFix "sda"
    (by decide) rfl
  ⟨h.1 ⟨ACTIVE, 5⟩ _ rfl rfl rfl, h2.2 rfl⟩

/-- Claim C2: on a duplicate-free tracked list, one `poweroff` pass issues
exactly one standby query for every device recorded IDLE or POWEROFF past
the timeout; the spin-down command is skipped exactly when smartctl returns
the sentinel 2, and the device ends POWEROFF with its timestamp kept.  An
ineligible device (no record, ACTIVE, or below the timeout) gets neither
command. -/
theorem claim_c2_poweroff_pass (disks : List DeviceId) (t n : Int)
    (sR hR : DeviceId → Int) (states : StateMap) (d : DeviceId)
    (hnd : disks.Nodup) (hmem : d ∈ disks) :
    (∀ st, states d = some st → eligible t n st →
      ((poweroffNew t n sR hR disks states).2.1.count (Cmd.query d) = 1
       ∧ (sR d = 2 →
           Cmd.spindown d ∉ (poweroffNew t n sR hR disks states).2.1)
       ∧ (sR d ≠ 2 →
           (poweroffNew t n sR hR disks states).2.1.count (Cmd.spindown d) = 1)
       ∧ (poweroffNew t n sR hR disks states).1 d
           = some ⟨POWEROFF, st.timestamp⟩))
    ∧ ((∀ st, states d = some st → ¬ eligible t n st) →
        Cmd.query d ∉ (poweroffNew t n sR hR disks states).2.1
        ∧ Cmd.spindown d ∉ (poweroffNew t n sR hR disks states).2.1) := by
  constructor
  · intro st hst hel
    obtain ⟨c1, c2, c3⟩ := pn_elig_count hel disks states hnd hmem hst
    obtain ⟨e1, _, _⟩ := pn_elig_effects hel disks states hmem hst
    exact ⟨c1, c2, c3, e1⟩
  · intro h
    exact (pn_inelig disks states h).2

theorem claim_c2_witness :
    (poweroffNew 10 2000 (fun _ => 0) (fun _ => 0) ["sda"]
        statesIdleFix).2.1.count (Cmd.query "sda") = 1
    ∧ (poweroffNew 10 2000 (fun _ => 0) (fun _ => 0) ["sda"]
        statesIdleFix).2.1.count (Cmd.spindown "sda") = 1
    ∧ (poweroffNew 10 2000 (fun _ => 0) (fun _ => 0) ["sda"]
        statesIdleFix).1 "sda" = some ⟨POWEROFF, 5⟩ :=
  let h := (claim_c2_poweroff_pass ["sda"] 10 2000 (fun _ => 0) (fun _ => 0)
      statesIdleFix "sda" (by decide) (by decide)).1 ⟨IDLE, 5⟩ rfl
    ⟨Or.inl rfl, by decide⟩
  ⟨h.1, h.2.2.1 (by decide), h.2.2.2⟩

/-- Claim C6: a failing spin-down (hdparm non-zero) is logged as an error,
the pass still completes (the functions are total) with the device stored
POWEROFF — a member of {Idle, PoweredOff} — and its timestamp unchanged,
so at any later clock reading the timeout still holds and the next pass
issues the standby query again: retry every poll interval. -/
theorem claim_c6_spindown_failure (disks : List DeviceId) (t n : Int)
    (sR hR : DeviceId → Int) (states : StateMap) (d : DeviceId)
    (st : DiskState) (hmem : d ∈ disks) (hst : states d = some st)
    (hlab : st.state = IDLE ∨ st.state = POWEROFF)
    (htime : t ≤ n - st.timestamp) (hsm : sR d ≠ 2) (hhd : hR d ≠ 0) :
    LogEvent.errHdparmFailed d ∈ (poweroffNew t n sR hR disks states).2.2
    ∧ (poweroffNew t n sR hR disks states).1 d = some ⟨POWEROFF, st.timestamp⟩
    ∧ (∀ n2, n ≤ n2 →
        Cmd.query d ∈ (poweroffNew t n2 sR hR disks
          (poweroffNew t n sR hR disks states).1).2.1) := by
  have hel : eligible t n st := ⟨hlab, htime⟩
  obtain ⟨e1, e2, e3⟩ := pn_elig_effects hel disks states hmem hst
  obtain ⟨sp, lg⟩ := e3 hsm
  refine ⟨lg hhd, e1, ?_⟩
  intro n2 hn2
  have hel2 : eligible t n2 (⟨POWEROFF, st.timestamp⟩ : DiskState) := by
    refine ⟨Or.inr rfl, ?_⟩
    show t ≤ n2 - st.timestamp
    omega
  exact (pn_elig_effects hel2 disks _ hmem e1).2.1

theorem claim_c6_witness :
    LogEvent.errHdparmFailed "sda" ∈ (poweroffNew 10 2000 (fun _ => 0)
      (fun _ => 1) ["sda"] statesIdleFix).2.2
    ∧ (poweroffNew 10 2000 (fun _ => 0) (fun _ => 1) ["sda"]
        statesIdleFix).1 "sda" = some ⟨POWEROFF, 5⟩
    ∧ Cmd.query "sda" ∈ (poweroffNew 10 3000 (fun _ => 0) (fun _ => 1) ["sda"]
        (poweroffNew 10 2000 (fun _ => 0) (fun _ => 1) ["sda"]
          statesIdleFix).1).2.1 :=
  let h := claim_c6_spindown_failure ["sda"] 10 2000 (fun _ => 0)
    (fun _ => 1) statesIdleFix "sda" ⟨IDLE, 5⟩ (by decide) rfl (Or.inl rfl)
    (by decide) (by decide) (by decide)
  ⟨h.1, h.2.1, h.2.2 3000 (by decide)⟩

/-- Claim C7, counterexample to the claim as stated: a content with one
well-formed and one malformed line makes `poll` abort with the IndexError
of the malformed line; the well-formed line's record is lost with it. -/
theorem claim_c7_counterexample :
    poll ["sda"] diskstatsLinesFix = Except.error () := rfl

/-- Claim C7 as amended: a line with fewer than ten whitespace-delimited
fields raises IndexError in `parse_diskstats_line`, and one such line
anywhere in the counter-source content aborts the whole `poll` cycle (which
propagates out of `run` and terminates the daemon): nothing of the snapshot
survives. -/
theorem claim_c7_amended (disks : List DeviceId) (lines : List String)
    (line : String) (hmem : line ∈ lines)
    (hbad : (diskstatsFields line).length < 10) :
    parse_diskstats_line line = Except.error ()
    ∧ poll disks lines = Except.error () := by
  have h9 : (diskstatsFields line).get? 9 = none := by
    rw [List.get?_eq_none]
    omega
  have hp : parse_diskstats_line line = Except.error () := by
    unfold parse_diskstats_line
    rw [h9]
    cases (diskstatsFields line).get? 2 <;> cases (diskstatsFields line).get? 5
      <;> rfl
  refine ⟨hp, ?_⟩
  unfold poll
  have hgen : ∀ (l : List String) (m : SnapMap), line ∈ l →
      pollLines disks l m = Except.error () := by
    intro l
    induction l with
    | nil =>
      intro m hm
      exact absurd hm (List.not_mem_nil _)
    | cons l2 rest ih =>
      intro m hm
      by_cases hl : l2 = line
      · subst hl
        exact pollLines_cons_error hp
      · cases hpl : parse_diskstats_line l2 with
        | error e =>
          cases e
          exact pollLines_cons_error hpl
        | ok trip =>
          obtain ⟨d, r, w⟩ := trip
          rw [pollLines_cons_ok hpl]
          refine ih _ ?_
          rcases List.mem_cons.mp hm with h1 | h1
          · exact absurd h1.symm hl
          · exact h1
  exact hgen lines _ hmem

theorem claim_c7_witness :
    parse_diskstats_line "bad line" = Except.error ()
    ∧ poll ["sda"] diskstatsLinesFix = Except.error () :=
  claim_c7_amended ["sda"] diskstatsLinesFix "bad line" (by decide) (by decide)

/-- Claim C8: the tracked set is exactly the configured names, normalized,
intersected with the pattern-filtered enumeration; a device absent from
that enumeration is excluded, never recorded by `poll`, and never named by
any `poweroff` command. -/
theorem claim_c8_tracked_set (devListing : List String)
    (cfg : String → Option String) (s : String) (d0 : DeviceId)
    (hdev : cfg "devices" = some s)
    (habsent : d0 ∉ devListing.filter devicePattern) :
    (initDaemon devListing cfg).1.disks
      = ((splitOnChar ',' (pyStrip s)).map normalize_name).filter
          (fun x => decide (x ∈ devListing.filter devicePattern))
    ∧ d0 ∉ (initDaemon devListing cfg).1.disks
    ∧ (∀ lines res,
        poll (initDaemon devListing cfg).1.disks lines = Except.ok res →
        res d0 = none)
    ∧ (∀ t n sR hR states,
        Cmd.query d0 ∉ (poweroffNew t n sR hR
          (initDaemon devListing cfg).1.disks states).2.1
        ∧ Cmd.spindown d0 ∉ (poweroffNew t n sR hR
          (initDaemon devListing cfg).1.disks states).2.1) := by
  have heq : (initDaemon devListing cfg).1.disks
      = ((splitOnChar ',' (pyStrip s)).map normalize_name).filter
          (fun x => decide (x ∈ devListing.filter devicePattern)) := by
    show (resolveDevices devListing cfg).1 = _
    simp [resolveDevices, hdev]
  have hnotin : d0 ∉ (initDaemon devListing cfg).1.disks := by
    rw [heq]
    intro hmem
    exact habsent (of_decide_eq_true (List.mem_filter.mp hmem).2)
  refine ⟨heq, hnotin, ?_, ?_⟩
  · intro lines res hok
    exact pollLines_not_tracked hnotin lines _ rfl res hok
  · intro t n sR hR states
    exact pn_cmds_not_mem hnotin

theorem claim_c8_witness :
    "sdb" ∉ (initDaemon ["sda", "loop0"] cfgDevFix).1.disks
    ∧ Cmd.query "sdb" ∉ (poweroffNew 10 2000 (fun _ => 0) (fun _ => 0)
        (initDaemon ["sda", "loop0"] cfgDevFix).1.disks statesIdleFix).2.1 :=
  let h := claim_c8_tracked_set ["sda", "loop0"] cfgDevFix " sdb , /dev/sda "
    "sdb" rfl (by decide)
  ⟨h.2.1, (h.2.2.2 10 2000 (fun _ => 0) (fun _ => 0) statesIdleFix).1⟩

/-- Claim C9: a supplied timeout or polling_interval value that is not a
valid integer makes startup emit a warning and fall back to the defaults
1800 and 10 respectively; the constructor still completes (it is a total
function producing the configuration). -/
theorem claim_c9_config_fallback (devListing : List String)
    (cfg : String → Option String) :
    (∀ s, cfg "timeout" = some s → pyInt s = none →
      (initDaemon devListing cfg).1.timeout = 1800
      ∧ LogEvent.warnInvalidTimeout ∈ (initDaemon devListing cfg).2)
    ∧ (∀ s, cfg "polling_interval" = some s → pyInt s = none →
      (initDaemon devListing cfg).1.polling_interval = 10
      ∧ LogEvent.warnInvalidPollingInterval ∈ (initDaemon devListing cfg).2) := by
  constructor
  · intro s hs hbad
    have h1 : (cfg "timeout").getD "1800" = s := by
      rw [hs]
      rfl
    have h2 : resolveTimeout cfg = (1800, [LogEvent.warnInvalidTimeout]) := by
      unfold resolveTimeout
      rw [h1, hbad]
    constructor
    · show (resolveTimeout cfg).1 = 1800
      rw [h2]
    · show LogEvent.warnInvalidTimeout ∈
        (resolveDevices devListing cfg).2 ++ (resolveTimeout cfg).2
          ++ (resolvePolling cfg).2
      rw [h2]
      exact List.mem_append_left _
        (List.mem_append_right _ (List.mem_cons_self _ _))
  · intro s hs hbad
    have h1 : (cfg "polling_interval").getD "10" = s := by
      rw [hs]
      rfl
    have h2 : resolvePolling cfg
        = (10, [LogEvent.warnInvalidPollingInterval]) := by
      unfold resolvePolling
      rw [h1, hbad]
    constructor
    · show (resolvePolling cfg).1 = 10
      rw [h2]
    · show LogEvent.warnInvalidPollingInterval ∈
        (resolveDevices devListing cfg).2 ++ (resolveTimeout cfg).2
          ++ (resolvePolling cfg).2
      rw [h2]
      exact List.mem_append_right _ (List.mem_cons_self _ _)

theorem claim_c9_witness :
    (initDaemon ["sda"] cfgBadFix).1.timeout = 1800
    ∧ LogEvent.warnInvalidTimeout ∈ (initDaemon ["sda"] cfgBadFix).2
    ∧ (initDaemon ["sda"] cfgBadFix).1.polling_interval = 10
    ∧ LogEvent.warnInvalidPollingInterval ∈ (initDaemon ["sda"] cfgBadFix).2 :=
  let h := claim_c9_config_fallback ["sda"] cfgBadFix
  let h1 := h.1 "abc" rfl (by decide)
  let h2 := h.2 "12.5" rfl (by decide)
  ⟨h1.1, h1.2, h2.1, h2.2⟩

/-! ### The whole-pass and whole-run simulation -/

theorem compareOld_nil {now : Int} {prev cur : SnapMap} {sts : StateMap} :
    compareOld now prev cur [] sts = sts := rfl

theorem compareOld_cons {now : Int} {prev cur : SnapMap} {sts : StateMap}
    {d : DeviceId} {rest : List DeviceId} :
    compareOld now prev cur (d :: rest) sts
      = compareOld now prev cur rest (compareDiskOld now prev cur sts d) := rfl

/-- The `compare` pass simulation. -/
theorem compare_sim {now : Int} {prev cur : SnapMap} :
    ∀ (l : List DeviceId) (oM nM : StateMap), StRel oM nM →
      (∀ d ∈ l, unchangedClass prev cur d = true → (nM d).isSome) →
      ∃ nR, compareNew now prev cur l nM = Except.ok nR
        ∧ StRel (compareOld now prev cur l oM) nR
        ∧ (∀ x, (nM x).isSome → (nR x).isSome)
        ∧ (∀ d ∈ l, (nR d).isSome) := by
  intro l
  induction l with
  | nil =>
    intro oM nM hrel hsome
    exact ⟨nM, rfl, hrel, fun x hx => hx, by simp⟩
  | cons d rest ih =>
    intro oM nM hrel hsome
    obtain ⟨n1, hstep, hrel1, hpres1, hd1⟩ :=
      compare_step_sim hrel (hsome d (List.mem_cons_self d rest))
    obtain ⟨nR, hrun, hrel2, hpres2, hall⟩ :=
      ih (compareDiskOld now prev cur oM d) n1 hrel1
        (fun d2 hd2 hu => hpres1 d2 (hsome d2 (List.mem_cons_of_mem d hd2) hu))
    refine ⟨nR, ?_, ?_, fun x hx => hpres2 x (hpres1 x hx), ?_⟩
    · rw [compareNew_cons_ok hstep]
      exact hrun
    · rw [compareOld_cons]
      exact hrel2
    · intro d2 hd2
      rcases List.mem_cons.mp hd2 with h1 | h1
      · subst h1
        exact hpres2 _ hd1
      · exact hall d2 h1

/-! Case equations for the older `poweroff` step. -/

theorem pdo_none {t n : Int} {sR hR : DeviceId → Int} {m : StateMap}
    {d : DeviceId} (h : m d = none) :
    poweroffDiskOld t n sR hR m d = (m, []) := by
  simp [poweroffDiskOld, h]

theorem pdo_inelig {t n : Int} {sR hR : DeviceId → Int} {m : StateMap}
    {d : DeviceId} {st : DiskState} (h : m d = some st)
    (h2 : ¬ eligible t n st) :
    poweroffDiskOld t n sR hR m d = (m, []) := by
  simp only [poweroffDiskOld, h]
  rw [if_neg h2]

theorem pdo_elig {t n : Int} {sR hR : DeviceId → Int} {m : StateMap}
    {d : DeviceId} {st : DiskState} (h : m d = some st)
    (h2 : eligible t n st) :
    poweroffDiskOld t n sR hR m d =
      (setMap m d ⟨POWEROFF, st.timestamp⟩,
       Cmd.query d :: (if sR d ≠ 2 then [Cmd.spindown d] else [])) := by
  simp only [poweroffDiskOld, h]
  rw [if_pos h2]

/-- The per-device `poweroff` simulation: identical commands and a
preserved relation. -/
theorem poweroff_step_sim {t n : Int} {sR hR : DeviceId → Int}
    {oM nM : StateMap} {d : DeviceId} (hrel : StRel oM nM) :
    (poweroffDiskOld t n sR hR oM d).2 = (poweroffDiskNew t n sR hR nM d).2.1
    ∧ StRel (poweroffDiskOld t n sR hR oM d).1
        (poweroffDiskNew t n sR hR nM d).1
    ∧ (∀ x, (nM x).isSome → ((poweroffDiskNew t n sR hR nM d).1 x).isSome) := by
  cases hst : nM d with
  | none =>
    have ho : oM d = none := by
      have h1 := hrel.1 d
      rw [hst] at h1
      cases hod : oM d with
      | none => rfl
      | some st2 =>
        rw [hod] at h1
        exact absurd h1 (by simp)
    rw [pdn_none hst, pdo_none ho]
    exact ⟨rfl, hrel, fun x hx => hx⟩
  | some st =>
    by_cases hact : st.state = ACTIVE
    · have hinel : ¬ eligible t n st := by
        intro hel
        rcases hel.1 with h1 | h1 <;> rw [hact] at h1 <;> exact StateLabel.noConfusion h1
      obtain ⟨st2, ho⟩ : ∃ st2, oM d = some st2 ∧ st2.state = st.state := by
        have := hrel.1 d
        rw [hst] at this
        cases hod : oM d with
        | none => rw [hod] at this; exact absurd this (by simp)
        | some st2 =>
          rw [hod] at this
          injection this with this
          exact ⟨st2, rfl, this⟩
      have hinel2 : ¬ eligible t n st2 := by
        intro hel
        rcases hel.1 with h1 | h1 <;> rw [ho.2, hact] at h1
          <;> exact StateLabel.noConfusion h1
      rw [pdn_inelig hst hinel, pdo_inelig ho.1 hinel2]
      exact ⟨rfl, hrel, fun x hx => hx⟩
    · have ho : oM d = some st := hrel.2 d st hst hact
      by_cases hel : eligible t n st
      · rw [pdn_elig hst hel, pdo_elig ho hel]
        refine ⟨rfl, StRel_set hrel d ⟨POWEROFF, st.timestamp⟩, ?_⟩
        intro x hx
        by_cases hxd : x = d
        · subst hxd
          simp [setMap]
        · simpa [setMap, hxd] using hx
      · rw [pdn_inelig hst hel, pdo_inelig ho hel]
        exact ⟨rfl, hrel, fun x hx => hx⟩

theorem poweroffOld_cons {t n : Int} {sR hR : DeviceId → Int} {m : StateMap}
    {d : DeviceId} {rest : List DeviceId} :
    poweroffOld t n sR hR (d :: rest) m =
      ((poweroffOld t n sR hR rest (poweroffDiskOld t n sR hR m d).1).1,
       (poweroffDiskOld t n sR hR m d).2
         ++ (poweroffOld t n sR hR rest (poweroffDiskOld t n sR hR m d).1).2) := rfl

/-- The `poweroff` pass simulation. -/
theorem poweroff_sim {t n : Int} {sR hR : DeviceId → Int} :
    ∀ (l : List DeviceId) (oM nM : StateMap), StRel oM nM →
      (poweroffOld t n sR hR l oM).2 = (poweroffNew t n sR hR l nM).2.1
      ∧ StRel (poweroffOld t n sR hR l oM).1 (poweroffNew t n sR hR l nM).1
      ∧ (∀ x, (nM x).isSome → ((poweroffNew t n sR hR l nM).1 x).isSome) := by
  intro l
  induction l with
  | nil =>
    intro oM nM hrel
    exact ⟨rfl, hrel, fun x hx => hx⟩
  | cons d rest ih =>
    intro oM nM hrel
    obtain ⟨hc1, hrel1, hpres1⟩ := @poweroff_step_sim t n sR hR oM nM d hrel
    obtain ⟨hc2, hrel2, hpres2⟩ := ih (poweroffDiskOld t n sR hR oM d).1
      (poweroffDiskNew t n sR hR nM d).1 hrel1
    rw [poweroffOld_cons, pn_cons]
    exact ⟨by rw [hc1, hc2], hrel2, fun x hx => hpres2 x (hpres1 x hx)⟩

/-- The cross-version cycle relation: equal stored snapshots, related state
stores, and a state record for every tracked device that has a stored
snapshot (what rules the KeyError out). -/
def SimRel (disks : List DeviceId) (o nst : DaemonState) : Prop :=
  o.cur = nst.cur
  ∧ StRel o.states nst.states
  ∧ (∀ d ∈ disks, (nst.cur d).isSome → (nst.states d).isSome)

theorem cycleNew_ok {disks : List DeviceId} {timeout : Int} {st : DaemonState}
    {inp : CycleInput} {st2 : StateMap}
    (h : compareNew inp.now st.cur (restrictSnap disks inp.snap) disks st.states
      = Except.ok st2) :
    cycleNew disks timeout st inp =
      Except.ok (⟨restrictSnap disks inp.snap,
          (poweroffNew timeout inp.now inp.sR inp.hR disks st2).1⟩,
        (poweroffNew timeout inp.now inp.sR inp.hR disks st2).2.1) := by
  unfold cycleNew
  rw [h]

/-- One cycle preserves the relation, with an identical command batch. -/
theorem cycle_sim {disks : List DeviceId} {timeout : Int} {o nst : DaemonState}
    {inp : CycleInput} (h : SimRel disks o nst) :
    ∃ n2 cmds, cycleNew disks timeout nst inp = Except.ok (n2, cmds)
      ∧ cycleOld disks timeout o inp = ((cycleOld disks timeout o inp).1, cmds)
      ∧ SimRel disks (cycleOld disks timeout o inp).1 n2 := by
  have hsome : ∀ d ∈ disks,
      unchangedClass nst.cur (restrictSnap disks inp.snap) d = true →
      (nst.states d).isSome := by
    intro d hd hu
    exact h.2.2 d hd (unchanged_prev_isSome hu)
  obtain ⟨nR, hok, hrelC, hpresC, hallC⟩ :=
    compare_sim disks o.states nst.states h.2.1 hsome
  have hok2 : compareNew inp.now nst.cur (restrictSnap disks inp.snap) disks
      nst.states = Except.ok nR := hok
  obtain ⟨hcmds, hrelP, hpresP⟩ :=
    @poweroff_sim timeout inp.now inp.sR inp.hR
      disks (compareOld inp.now o.cur (restrictSnap disks inp.snap) disks
        o.states) nR (by rw [h.1]; exact hrelC)
  refine ⟨⟨restrictSnap disks inp.snap,
      (poweroffNew timeout inp.now inp.sR inp.hR disks nR).1⟩,
    (poweroffNew timeout inp.now inp.sR inp.hR disks nR).2.1,
    cycleNew_ok hok2, ?_, ?_, ?_, ?_⟩
  · show cycleOld disks timeout o inp = (_, _)
    unfold cycleOld
    rw [hcmds]
  · rfl
  · show StRel (poweroffOld timeout inp.now inp.sR inp.hR disks
        (compareOld inp.now o.cur (restrictSnap disks inp.snap) disks
          o.states)).1
      (poweroffNew timeout inp.now inp.sR inp.hR disks nR).1
    exact hrelP
  · intro d hd _
    exact hpresP d (hallC d hd)

theorem runNew_cons_ok {disks : List DeviceId} {timeout : Int}
    {inp : CycleInput} {rest : List CycleInput} {st st1 st2 : DaemonState}
    {cmds1 cmds2 : List Cmd}
    (h : cycleNew disks timeout st inp = Except.ok (st1, cmds1))
    (h2 : runNew disks timeout rest st1 = Except.ok (st2, cmds2)) :
    runNew disks timeout (inp :: rest) st = Except.ok (st2, cmds1 ++ cmds2) := by
  simp only [runNew]
  rw [h]
  simp only []
  rw [h2]

theorem runOld_cons {disks : List DeviceId} {timeout : Int}
    {inp : CycleInput} {rest : List CycleInput} {st : DaemonState} :
    runOld disks timeout (inp :: rest) st =
      ((runOld disks timeout rest (cycleOld disks timeout st inp).1).1,
       (cycleOld disks timeout st inp).2
         ++ (runOld disks timeout rest (cycleOld disks timeout st inp).1).2) := rfl

/-- The whole-run simulation. -/
theorem run_sim {disks : List DeviceId} {timeout : Int} :
    ∀ (inputs : List CycleInput) (o nst : DaemonState), SimRel disks o nst →
      ∃ p, runNew disks timeout inputs nst = Except.ok p
        ∧ (runOld disks timeout inputs o).2 = p.2
        ∧ SimRel disks (runOld disks timeout inputs o).1 p.1 := by
  intro inputs
  induction inputs with
  | nil =>
    intro o nst h
    exact ⟨(nst, []), rfl, rfl, h⟩
  | cons inp rest ih =>
    intro o nst h
    obtain ⟨n1, cmds1, hcyc, hold, hsim1⟩ := @cycle_sim disks timeout o nst inp h
    obtain ⟨p2, hrun2, hcmds2, hsim2⟩ := ih (cycleOld disks timeout o inp).1 n1 hsim1
    refine ⟨(p2.1, cmds1 ++ p2.2), ?_, ?_, ?_⟩
    · exact runNew_cons_ok hcyc (by rw [hrun2])
    · rw [runOld_cons]
      show (cycleOld disks timeout o inp).2 ++ _ = cmds1 ++ p2.2
      have : (cycleOld disks timeout o inp).2 = cmds1 := by
        rw [hold]
      rw [this, hcmds2]
    · rw [runOld_cons]
      exact hsim2

/-- Claim C10: over any tracked list, timeout and cycle sequence (snapshot
maps, clock readings and tool return codes per cycle) from the initial
empty state, the newer version never hits its KeyError, both versions issue
the same command trace, store the same snapshots, and agree on every
device's state label after every cycle (every prefix of the input list is
itself an instance of this statement); wherever the stored label is not
ACTIVE the records agree exactly, so the only stored-data divergence is the
timestamp of a device already ACTIVE on a changed tick — which the old
version refreshes, the new one leaves, and no command decision reads. -/
theorem claim_c10_refinement (disks : List DeviceId) (timeout : Int)
    (inputs : List CycleInput) :
    ∃ p, runNew disks timeout inputs initState = Except.ok p
      ∧ (runOld disks timeout inputs initState).2 = p.2
      ∧ (runOld disks timeout inputs initState).1.cur = p.1.cur
      ∧ (∀ d, ((runOld disks timeout inputs initState).1.states d).map
            DiskState.state = (p.1.states d).map DiskState.state)
      ∧ (∀ d st, p.1.states d = some st → st.state ≠ ACTIVE →
          (runOld disks timeout inputs initState).1.states d = some st) := by
  have hinit : SimRel disks initState initState := by
    refine ⟨rfl, ⟨fun x => rfl, ?_⟩, ?_⟩
    · intro x st hx
      exact absurd hx (by simp [initState])
    · intro d _ hx
      exact absurd hx (by simp [initState])
  obtain ⟨p, hrun, hcmds, hsim⟩ := run_sim inputs initState initState hinit
  exact ⟨p, hrun, hcmds, hsim.1, hsim.2.1.1, hsim.2.1.2⟩

end DP
